import Mathlib

/-
Verification of the test-automation-capa repository against its specification.

The development shallowly embeds the three Python modules:
  * run-test-suite.py      — suite orchestration, batch running, report numbers;
  * scripts/parse-test-env.py — the notification text parser;
  * scripts/mce_env_manager.py — the JSON-backed environment store.

External effects (launching ansible-playbook, wall clocks, the filesystem) are
abstracted: the success of one playbook execution is an oracle `Exec`, and
timestamps are plain naturals supplied by the caller.
-/

namespace Capa

/-! ## Suite runner data model (run-test-suite.py) -/

/-- A playbook entry of a suite definition: its name and the optional
`required` flag; `required` absent defaults to true at the use site
(`playbook.get("required", True)`). -/
structure PlaybookSpec where
  name : String
  required : Option Bool
deriving DecidableEq

/-- A suite definition as loaded from JSON: identifier, tags, the optional
`stopOnFailure` flag (absent defaults to false at the use site), and the
ordered playbook list. -/
structure SuiteDef where
  sid : String
  tags : List String
  stopOnFailure : Option Bool
  playbooks : List PlaybookSpec
deriving DecidableEq

/-- The run-wide counters of `TestSuiteRunner.results`. -/
structure RunCounters where
  total_tests : Nat
  passed : Nat
  failed : Nat
  skipped : Nat
deriving DecidableEq

/-- The part of a PlaybookResult the orchestration logic inspects:
the playbook name and its success flag. -/
structure PlaybookResult where
  name : String
  success : Bool
deriving DecidableEq

/-- The counters of a freshly constructed runner (all zero). -/
def initCounters : RunCounters := ⟨0, 0, 0, 0⟩

/-- The outcome of `run_playbook` for a given spec, abstracted as an oracle:
the subprocess exit status is external input to the orchestrator. -/
abbrev Exec := PlaybookSpec → Bool

/-- The PlaybookResult produced for a spec under a given execution oracle. -/
def mkResult (exec : Exec) (p : PlaybookSpec) : PlaybookResult :=
  ⟨p.name, exec p⟩

/-- The playbook loop of `TestSuiteRunner.run_test_suite` (lines 294-309):
run each playbook in order, append its result, bump `passed`/`failed`, and
break out of the loop when the playbook failed, the suite has stopOnFailure
set, and the playbook is required (default true). -/
def runSuiteLoop (exec : Exec) (stopOnFailure : Bool) :
    List PlaybookSpec → RunCounters → List PlaybookResult × RunCounters
  | [], st => ([], st)
  | pb :: rest, st =>
    let r := mkResult exec pb
    if r.success then
      let out := runSuiteLoop exec stopOnFailure rest { st with passed := st.passed + 1 }
      (r :: out.1, out.2)
    else
      let st' := { st with failed := st.failed + 1 }
      if stopOnFailure && pb.required.getD true then
        ([r], st')
      else
        let out := runSuiteLoop exec stopOnFailure rest st'
        (r :: out.1, out.2)

/-- `TestSuiteRunner.run_test_suite` (lines 270-323) on a loaded suite:
runs the playbook loop from the current run-wide counters, then assigns
`total_tests := len(playbooks)` (an overwrite, line 321), and returns
`self.results["failed"] == 0` together with the suite's playbook results and
the updated counters. -/
def run_test_suite (exec : Exec) (suite : SuiteDef) (st : RunCounters) :
    Bool × List PlaybookResult × RunCounters :=
  let out := runSuiteLoop exec (suite.stopOnFailure.getD false) suite.playbooks st
  let st' := { out.2 with total_tests := suite.playbooks.length }
  (st'.failed == 0, out.1, st')

/-- The suite-selection step of `run_all_suites`: with a tag filter keep the
suites whose tag list contains the tag, otherwise keep all suites. -/
def selectSuites (tagFilter : Option String) (suites : List SuiteDef) : List SuiteDef :=
  match tagFilter with
  | some tag => suites.filter (fun s => s.tags.contains tag)
  | none => suites

/-- The loop of `run_all_suites` (lines 347-357): run every selected suite in
order, threading the run-wide counters, and clear `all_passed` whenever a
suite run returns false. -/
def runSuitesFold (exec : Exec) : List SuiteDef → RunCounters → Bool → Bool × RunCounters
  | [], st, acc => (acc, st)
  | s :: rest, st, acc =>
    let out := run_test_suite exec s st
    runSuitesFold exec rest out.2.2 (acc && out.1)

/-- `TestSuiteRunner.run_all_suites` (lines 325-357): select suites by tag,
return false immediately when none match (line 340-342), else run them all. -/
def run_all_suites (exec : Exec) (tagFilter : Option String) (suites : List SuiteDef)
    (st : RunCounters) : Bool × RunCounters :=
  let sel := selectSuites tagFilter suites
  if sel.isEmpty then (false, st)
  else runSuitesFold exec sel st true

/-- The exit-code mapping of `main` (line 915): `return 0 if success else 1`. -/
def exitCode (success : Bool) : Nat := if success then 0 else 1

/-- The pass percentage of `_generate_html_report` (line 445):
`(passed / max(total_tests, 1)) * 100` in exact arithmetic. -/
def passedPct (st : RunCounters) : ℚ :=
  ((st.passed : ℚ) / ((Nat.max st.total_tests 1 : ℕ) : ℚ)) * 100

/-- Number of failed results in a playbook-result list. -/
def failCount (rs : List PlaybookResult) : Nat :=
  rs.countP (fun r => !r.success)

/-- The per-suite local success predicate of the specification: every
playbook executed in the suite (the entries of the produced result list)
succeeded.  The result list does not depend on the incoming counters, so it
is evaluated from the zero counters. -/
def suiteAllPass (exec : Exec) (suite : SuiteDef) : Bool :=
  ((runSuiteLoop exec (suite.stopOnFailure.getD false) suite.playbooks initCounters).1).all
    (fun r => r.success)

/-- The failures a suite contributes to the run-wide failed counter. -/
def suiteFailCount (exec : Exec) (suite : SuiteDef) : Nat :=
  failCount (runSuiteLoop exec (suite.stopOnFailure.getD false) suite.playbooks initCounters).1

/-! ## Python dict and string primitives shared by the embeddings -/

/-- Python dict assignment `m[k] = v` on an insertion-ordered association
list: overwrite the binding of `k` in place when the key exists (there is at
most one, since dicts have unique keys and these lists are built from the
empty dict by assignments), else append the new binding. -/
def insertKV {α : Type} : List (String × α) → String → α → List (String × α)
  | [], k, v => [(k, v)]
  | p :: rest, k, v =>
    if p.1 == k then (k, v) :: rest else p :: insertKV rest k v

/-- Lookup in an insertion-ordered association list (first binding wins;
the lists built with `insertKV` have distinct keys). -/
def dictLookup {α : Type} (d : List (String × α)) (k : String) : Option α :=
  (d.find? (fun p => p.1 == k)).map (fun p => p.2)

/-- Python `dict.update`: assign every binding of `u` into `d` in order. -/
def dictUpdate {α : Type} (d u : List (String × α)) : List (String × α) :=
  u.foldl (fun acc p => insertKV acc p.1 p.2) d

/-- The keys of an association list. -/
def keysOf {α : Type} (d : List (String × α)) : List String := d.map (fun p => p.1)

/-- The variable merge of `TestSuiteRunner.run_playbook` (lines 144-152):
start from an empty dict, update with the playbook's `extra_vars`, update
with the runner's caller-supplied `extra_vars` (so those override), then in
dry-run mode assign `dry_run = "true"`. -/
def all_vars (specVars callerVars : List (String × String)) (dryRun : Bool) :
    List (String × String) :=
  let av := dictUpdate [] specVars
  let av2 := dictUpdate av callerVars
  if dryRun then insertKV av2 "dry_run" "true" else av2

/-- Python character class `\w` on the ASCII inputs at hand:
letters, digits and underscore. -/
def isWordChar (c : Char) : Bool := c.isAlphanum || c == '_'

/-- Python character class `\s` on the ASCII inputs at hand. -/
def isSpaceChar (c : Char) : Bool :=
  c == ' ' || c == '\t' || c == '\n' || c == '\r' || c == '\x0b' || c == '\x0c'

/-- Python character class `\d`. -/
def isDigitChar (c : Char) : Bool := c.isDigit

/-- Decimal digits to a natural number (`int(...)` on a digit run). -/
def digitsToNat (ds : List Char) : Nat :=
  ds.foldl (fun n c => n * 10 + (c.toNat - 48)) 0

/-- Python `str.strip` on a character list. -/
def stripChars (s : List Char) : List Char :=
  ((s.dropWhile isSpaceChar).reverse.dropWhile isSpaceChar).reverse

/-- Python `str.strip`. -/
def pyStrip (s : String) : String := String.mk (stripChars s.data)

/-- Python `str.lower` on the ASCII inputs at hand. -/
def pyLower (s : String) : String := String.mk (s.data.map Char.toLower)

/-- Does `p` occur as a contiguous segment of `s`? -/
def containsSeg (p s : List Char) : Bool :=
  (List.range (s.length + 1)).any (fun i => p.isPrefixOf (s.drop i))

/-- Python substring test `needle in haystack`. -/
def pyContains (needle haystack : String) : Bool :=
  containsSeg needle.data haystack.data

/-! ## Notification parser (scripts/parse-test-env.py) -/

/-- One value of the `components` mapping built by `parse_notification`. -/
structure Component where
  failures : Nat
  owner : String
deriving DecidableEq

/-- A JSON field that can be missing from its object, null, or a string.
`parse_notification` emits present-but-null fields for patterns that did not
match; records from other sources may lack the key entirely. -/
inductive JField where
  | absent
  | null
  | str (s : String)
deriving DecidableEq

/-- `x if match else None` on an optional capture. -/
def toJField : Option String → JField
  | none => JField.null
  | some s => JField.str s

/-- The string content of a ticket field, empty unless it is a string. -/
def jfieldStr : JField → String
  | JField.str s => s
  | _ => ""

/-- The title scan of `parse_notification` (lines 34-40): the first line not
containing `---` whose stripped form is nonempty; skipped lines never break
the loop. -/
def findTitle : List String → Option String
  | [] => none
  | l :: rest =>
    if pyContains "---" l then findTitle rest
    else if (pyStrip l).isEmpty then findTitle rest
    else some (pyStrip l)

/-- Literal piece of a regular expression: match `lit` exactly at the head. -/
def matchLit (lit : List Char) (s : List Char) : Option (List Char) :=
  if lit.isPrefixOf s then some (s.drop lit.length) else none

/-- The deterministic tail `\s*-->\s*Jenkins Job` of the component pattern.
Both `\s*` pieces are forced: whitespace never overlaps the literal that
follows, so the maximal run is the only candidate. -/
def matchArrowTail (s : List Char) : Option (List Char) :=
  match matchLit "-->".data (s.dropWhile isSpaceChar) with
  | none => none
  | some s1 => matchLit "Jenkins Job".data (s1.dropWhile isSpaceChar)

/-- Greedy `([^-]+)` with backtracking: try the owner-run length `b` from the
maximal non-hyphen run downwards; the continuation is `matchArrowTail`. -/
def ownerGo (t : List Char) : Nat → Option (String × List Char)
  | 0 => none
  | b + 1 =>
    match matchArrowTail (t.drop (b + 1)) with
    | some rest => some (String.mk (t.take (b + 1)), rest)
    | none => ownerGo t b

/-- `([^-]+)\s*-->\s*Jenkins Job` starting at `t`. -/
def tryOwnerBody (t : List Char) : Option (String × List Char) :=
  ownerGo t (t.takeWhile (fun c => !(c == '-'))).length

/-- Greedy `@?`: prefer consuming a leading `@` before the owner group. -/
def tryOwnerAt (t : List Char) : Option (String × List Char) :=
  match t with
  | '@' :: t' => (tryOwnerBody t').orElse (fun _ => tryOwnerBody t)
  | _ => tryOwnerBody t

/-- Greedy `\s*` before `@?([^-]+)...` with backtracking: try dropping `a`
whitespace characters, `a` from the maximal whitespace run downwards. -/
def spacesGo (s : List Char) : Nat → Option (String × List Char)
  | 0 => tryOwnerAt s
  | a + 1 => (tryOwnerAt (s.drop (a + 1))).orElse (fun _ => spacesGo s a)

/-- Match the component pattern `(\w+)\((\d+)\):\s*@?([^-]+)\s*-->\s*Jenkins Job`
anchored at the head of `s`; on success return the three captured groups (the
owner still raw, unstripped) and the rest of the input.  `\w+` and `\d+` never
overlap the literal delimiters that follow them, so their maximal runs are the
only candidates. -/
def matchComponentAt (s : List Char) : Option ((String × Nat × String) × List Char) :=
  let w := s.takeWhile isWordChar
  if w.isEmpty then none
  else
    match s.drop w.length with
    | '(' :: s2 =>
      let d := s2.takeWhile isDigitChar
      if d.isEmpty then none
      else
        match s2.drop d.length with
        | ')' :: ':' :: s3 =>
          match spacesGo s3 (s3.takeWhile isSpaceChar).length with
          | some (ownerRaw, rest) => some ((String.mk w, digitsToNat d, ownerRaw), rest)
          | none => none
        | _ => none
    | _ => none

/-- `re.finditer` over the component pattern: scan left to right, yield the
leftmost matches, continue after each match (non-overlapping).  The fuel
argument bounds the recursion; every step consumes at least one character, so
an initial fuel of the input length is sufficient. -/
def findAllComponents : Nat → List Char → List (String × Nat × String)
  | 0, _ => []
  | _, [] => []
  | fuel + 1, s =>
    match matchComponentAt s with
    | some (m, rest) => m :: findAllComponents fuel rest
    | none => findAllComponents fuel (s.drop 1)

/-- The `components` dict of `parse_notification` (lines 56-65): insert each
match under its component name (later matches overwrite), stripping the owner
capture. -/
def buildComponents (ms : List (String × Nat × String)) : List (String × Component) :=
  ms.foldl (fun acc m => insertKV acc m.1 ⟨m.2.1, pyStrip m.2.2⟩) []

/-- `\s*([^\n]+)` anchored at `t`, candidate with the first character of the
residue fixed: fail at end of input or on a newline, else capture greedily to
the end of the line. -/
def lineCapAt (t : List Char) : Option (List Char) :=
  match t with
  | [] => none
  | c :: _ => if c == '\n' then none else some (t.takeWhile (fun ch => !(ch == '\n')))

/-- Backtracking over the `\s*` run for `\s*([^\n]+)`: try dropping `a`
whitespace characters, `a` from the maximal run downwards. -/
def lineCapGo (t : List Char) : Nat → Option (List Char)
  | 0 => lineCapAt t
  | a + 1 => (lineCapAt (t.drop (a + 1))).orElse (fun _ => lineCapGo t a)

/-- `\s*([^\n]+)` anchored at `t`. -/
def matchWsLine (t : List Char) : Option (List Char) :=
  lineCapGo t (t.takeWhile isSpaceChar).length

/-- `re.search` for `LIT\s*([^\n]+)`: scan left to right for the first
position where the whole pattern matches. -/
def searchLinePat (lit : List Char) : Nat → List Char → Option String
  | 0, _ => none
  | _, [] => none
  | fuel + 1, s =>
    if lit.isPrefixOf s then
      match matchWsLine (s.drop lit.length) with
      | some cap => some (String.mk cap)
      | none => searchLinePat lit fuel (s.drop 1)
    else searchLinePat lit fuel (s.drop 1)

/-- `\s*(\S+)` anchored at `t`: whitespace and `\S` are disjoint, so the
maximal runs are the only candidates. -/
def matchWsToken (t : List Char) : Option (List Char) :=
  let t' := t.dropWhile isSpaceChar
  let w := t'.takeWhile (fun c => !isSpaceChar c)
  if w.isEmpty then none else some w

/-- `re.search` for `LIT\s*(\S+)`. -/
def searchTokenPat (lit : List Char) : Nat → List Char → Option String
  | 0, _ => none
  | _, [] => none
  | fuel + 1, s =>
    if lit.isPrefixOf s then
      match matchWsToken (s.drop lit.length) with
      | some cap => some (String.mk cap)
      | none => searchTokenPat lit fuel (s.drop 1)
    else searchTokenPat lit fuel (s.drop 1)

/-- The `notification` record built by `TestEnvParser.parse_notification`
(lines 29-78).  All keys are always present; fields whose pattern did not
match are null. -/
structure NotificationData where
  title : Option String
  mce_version : Option String
  acm_version : Option String
  hub_cluster : Option String
  polarion : JField
  jira : JField
  components : List (String × Component)
  total_failures : Nat
deriving DecidableEq

/-- `TestEnvParser.parse_notification`: title from the stripped, line-split
text; versions via `MCE:\s*([^\n]+)` and `ACM:\s*([^\n]+)` (stripped);
`Hub creds:\s*(\S+)`, `Polarion:\s*(\S+)`, `Jira ticket:\s*(\S+)`;
the component mapping from the finditer scan; `total_failures` as the sum of
the failures over the component mapping's values. -/
def parse_notification (text : String) : NotificationData :=
  let cs := text.data
  let fuel := cs.length
  let comps := buildComponents (findAllComponents fuel cs)
  { title := findTitle ((pyStrip text).splitOn "\n")
    mce_version := (searchLinePat "MCE:".data fuel cs).map pyStrip
    acm_version := (searchLinePat "ACM:".data fuel cs).map pyStrip
    hub_cluster := searchTokenPat "Hub creds:".data fuel cs
    polarion := toJField (searchTokenPat "Polarion:".data fuel cs)
    jira := toJField (searchTokenPat "Jira ticket:".data fuel cs)
    components := comps
    total_failures := (comps.map (fun p => p.2.failures)).sum }

/-! ## Environment store (scripts/mce_env_manager.py) -/

/-- The fields of the `cluster` sub-object that `add_environment` and the
search path read. -/
structure ClusterData where
  platform : Option String
  hub_cluster : Option String
deriving DecidableEq

/-- The nested payload `data` of a stored environment record: the optional
`cluster` and `notification` sub-objects. -/
structure EnvData where
  cluster : Option ClusterData
  notification : Option NotificationData
deriving DecidableEq

/-- One entry of the `environments` list of the store. -/
structure EnvRecord where
  cluster_name : String
  platform : String
  added_date : Nat
  last_accessed : Nat
  status : String
  notes : String
  data : EnvData
deriving DecidableEq

/-- `env_data.get('cluster', {}).get('hub_cluster', 'unknown')` (line 37). -/
def extractClusterName (d : EnvData) : String :=
  match d.cluster with
  | none => "unknown"
  | some c => c.hub_cluster.getD "unknown"

/-- `env_data.get('cluster', {}).get('platform', 'unknown')` (line 38). -/
def extractPlatform (d : EnvData) : String :=
  match d.cluster with
  | none => "unknown"
  | some c => c.platform.getD "unknown"

/-- The `env_record` literal of `add_environment` (lines 47-55), with both
timestamps set to the current time. -/
def mkEnvRecord (now : Nat) (d : EnvData) (status notes : String) : EnvRecord :=
  { cluster_name := extractClusterName d
    platform := extractPlatform d
    added_date := now
    last_accessed := now
    status := status
    notes := notes
    data := d }

/-- The body of `add_environment` (lines 41-65): find the first record with
the given cluster name and replace it in place, keeping its `added_date`;
append the new record when no record matches. -/
def addEnvGo (r : EnvRecord) (cname : String) : List EnvRecord → List EnvRecord
  | [] => [r]
  | env :: rest =>
    if env.cluster_name == cname then
      { r with added_date := env.added_date } :: rest
    else env :: addEnvGo r cname rest

/-- `MCEEnvManager.add_environment` on the `environments` list. -/
def add_environment (now : Nat) (d : EnvData) (status notes : String)
    (store : List EnvRecord) : List EnvRecord :=
  addEnvGo (mkEnvRecord now d status notes) (extractClusterName d) store

/-- `env.get('data', {}).get('notification', {}).get(key, '')` followed by
`.lower()`: the result is `none` exactly when the access raises
(`AttributeError: NoneType has no attribute lower`), i.e. when the key is
present with a null value; a missing object or key yields the empty string. -/
def ticketField (d : EnvData) (f : NotificationData → JField) : Option String :=
  match d.notification with
  | none => some ""
  | some n =>
    match f n with
    | JField.absent => some ""
    | JField.null => none
    | JField.str s => some s

/-- The per-record condition of `search_environments` (lines 112-116): the
short-circuiting `or` over cluster name, platform, notes and the two nested
ticket fields, each lower-cased; an error from a null ticket field aborts. -/
def envMatches (q : String) (env : EnvRecord) : Except String Bool :=
  if pyContains q (pyLower env.cluster_name) then Except.ok true
  else if pyContains q (pyLower env.platform) then Except.ok true
  else if pyContains q (pyLower env.notes) then Except.ok true
  else
    match ticketField env.data (fun n => n.jira) with
    | none => Except.error "AttributeError"
    | some j =>
      if pyContains q (pyLower j) then Except.ok true
      else
        match ticketField env.data (fun n => n.polarion) with
        | none => Except.error "AttributeError"
        | some p => Except.ok (pyContains q (pyLower p))

/-- The result-collecting loop of `search_environments`; a raised error
propagates out of the whole call. -/
def searchGo (q : String) : List EnvRecord → Except String (List EnvRecord)
  | [] => Except.ok []
  | env :: rest =>
    match envMatches q env with
    | Except.error e => Except.error e
    | Except.ok true =>
      match searchGo q rest with
      | Except.error e => Except.error e
      | Except.ok l => Except.ok (env :: l)
    | Except.ok false => searchGo q rest

/-- `MCEEnvManager.search_environments` (lines 106-119): lower-case the query
once, then scan the store. -/
def search_environments (query : String) (store : List EnvRecord) :
    Except String (List EnvRecord) :=
  searchGo (pyLower query) store

/-- Records whose two nested ticket-reference fields are strings or absent
(never present-but-null). -/
def ticketFieldsOk (env : EnvRecord) : Prop :=
  ∀ nd, env.data.notification = some nd →
    nd.jira ≠ JField.null ∧ nd.polarion ≠ JField.null

/-! ## Concrete scenario inputs -/

/-- The notification text of the C9 scenario. -/
def c9Text : String :=
  "networking(3): @alice --> Jenkins Job\nstorage(1): @bob --> Jenkins Job"

/-- A notification text with no `Jira ticket:` and no `Polarion:` entry, so
the parser emits both ticket fields as null. -/
def c10Text : String :=
  "CAPA hub ready\nMCE: 2.7.0\nHub creds: vault-path\nnetworking(2): @alice --> Jenkins Job"

/-- A payload as produced by the interactive flow: cluster sub-object plus
the parsed notification of `c10Text`. -/
def c10EnvData : EnvData :=
  { cluster := some { platform := some "AWS ARM", hub_cluster := some "hub-a" }
    notification := some (parse_notification c10Text) }

/-- A one-record store obtained by upserting `c10EnvData`. -/
def c10Store : List EnvRecord := add_environment 0 c10EnvData "unknown" "" []

/-- A payload whose cluster name is `c1`, for exercising the upsert. -/
def c7Data : EnvData :=
  { cluster := some { platform := some "AWS", hub_cluster := some "c1" }
    notification := none }

/-- A pre-existing record for cluster `c1` with an old added timestamp. -/
def c7Old : EnvRecord :=
  { cluster_name := "c1", platform := "IBM Power", added_date := 5, last_accessed := 6,
    status := "pass", notes := "old", data := { cluster := none, notification := none } }

/-- A one-record store containing `c7Old`. -/
def c7Store : List EnvRecord := [c7Old]

/-! ## Helper lemmas about the suite runner -/

theorem natSum_eq_zero (l : List Nat) : l.sum = 0 ↔ ∀ x ∈ l, x = 0 := by
  induction l with
  | nil => simp
  | cons a t ih => simp [List.sum_cons, Nat.add_eq_zero, ih]

theorem runSuiteLoop_fst_ext (exec : Exec) (sof : Bool) (pbs : List PlaybookSpec)
    (st st' : RunCounters) :
    (runSuiteLoop exec sof pbs st).1 = (runSuiteLoop exec sof pbs st').1 := by
  induction pbs generalizing st st' with
  | nil => rfl
  | cons pb rest ih =>
    simp only [runSuiteLoop, mkResult]
    cases hr : exec pb with
    | true => simpa using ih _ _
    | false =>
      cases hs : sof && pb.required.getD true with
      | true => simp
      | false => simpa using ih _ _

theorem runSuiteLoop_failed (exec : Exec) (sof : Bool) (pbs : List PlaybookSpec)
    (st : RunCounters) :
    (runSuiteLoop exec sof pbs st).2.failed
      = st.failed + failCount (runSuiteLoop exec sof pbs st).1 := by
  induction pbs generalizing st with
  | nil => simp [runSuiteLoop, failCount]
  | cons pb rest ih =>
    simp only [runSuiteLoop, mkResult]
    cases hr : exec pb with
    | true =>
      simpa [failCount, List.countP_cons, hr] using ih { st with passed := st.passed + 1 }
    | false =>
      cases hs : sof && pb.required.getD true with
      | true => simp [failCount, List.countP_cons, hr]
      | false =>
        have h2 := ih { st with failed := st.failed + 1 }
        simp [failCount, List.countP_cons, hr, hs, h2]
        omega

theorem failCount_eq_zero_iff (rs : List PlaybookResult) :
    failCount rs = 0 ↔ rs.all (fun r => r.success) = true := by
  simp [failCount, List.countP_eq_zero, List.all_eq_true]

theorem run_test_suite_fst_eq (exec : Exec) (suite : SuiteDef) (st : RunCounters) :
    (run_test_suite exec suite st).1
      = ((run_test_suite exec suite st).2.2.failed == 0) := rfl

theorem run_test_suite_failed (exec : Exec) (suite : SuiteDef) (st : RunCounters) :
    (run_test_suite exec suite st).2.2.failed = st.failed + suiteFailCount exec suite := by
  simp only [run_test_suite, suiteFailCount]
  rw [runSuiteLoop_failed, runSuiteLoop_fst_ext exec _ _ st initCounters]

theorem run_test_suite_fst (exec : Exec) (suite : SuiteDef) (st : RunCounters) :
    (run_test_suite exec suite st).1
      = ((st.failed == 0) && suiteAllPass exec suite) := by
  rw [run_test_suite_fst_eq, run_test_suite_failed]
  rw [Bool.eq_iff_iff]
  simp only [Bool.and_eq_true, beq_iff_eq, Nat.add_eq_zero, suiteFailCount, suiteAllPass]
  rw [← failCount_eq_zero_iff]

theorem runSuitesFold_failed (exec : Exec) (l : List SuiteDef) (st : RunCounters) (acc : Bool) :
    (runSuitesFold exec l st acc).2.failed
      = st.failed + (l.map (suiteFailCount exec)).sum := by
  induction l generalizing st acc with
  | nil => simp [runSuitesFold]
  | cons s rest ih =>
    simp only [runSuitesFold, List.map_cons, List.sum_cons]
    rw [ih, run_test_suite_failed]
    omega

theorem suiteFailCount_eq_zero_iff (exec : Exec) (s : SuiteDef) :
    suiteFailCount exec s = 0 ↔ suiteAllPass exec s = true := by
  unfold suiteFailCount suiteAllPass
  exact failCount_eq_zero_iff _

theorem runSuitesFold_fst (exec : Exec) (l : List SuiteDef) (st : RunCounters) (acc : Bool)
    (h : l ≠ []) :
    (runSuitesFold exec l st acc).1
      = (acc && (st.failed + (l.map (suiteFailCount exec)).sum == 0)) := by
  induction l generalizing st acc with
  | nil => exact absurd rfl h
  | cons s rest ih =>
    cases rest with
    | nil =>
      simp only [runSuitesFold]
      rw [run_test_suite_fst_eq, run_test_suite_failed]
      simp
    | cons s2 rest2 =>
      show (runSuitesFold exec (s2 :: rest2) (run_test_suite exec s st).2.2
              (acc && (run_test_suite exec s st).1)).1 = _
      rw [ih _ _ (by simp)]
      rw [run_test_suite_fst_eq, run_test_suite_failed]
      rw [Bool.eq_iff_iff]
      simp only [Bool.and_eq_true, beq_iff_eq, List.map_cons, List.sum_cons]
      constructor
      · rintro ⟨⟨ha, h1⟩, hf⟩
        exact ⟨ha, by omega⟩
      · rintro ⟨ha, hf⟩
        exact ⟨⟨ha, by omega⟩, by omega⟩

/-! ## Claim theorems: suite orchestration and batch running -/

/-- C1 counterexample: with a failing first suite already run, the value
`run_test_suite` returns for a second suite whose only playbook succeeded is
false, although zero playbooks executed in that suite failed — refuting the
claimed equivalence. -/
theorem C1_cex :
    ((run_test_suite (fun p => p.name == "ok") ⟨"s2", [], none, [⟨"ok", none⟩]⟩
        (run_test_suite (fun p => p.name == "ok") ⟨"s1", [], none, [⟨"bad", none⟩]⟩
          initCounters).2.2).1 = false)
    ∧ ((run_test_suite (fun p => p.name == "ok") ⟨"s2", [], none, [⟨"ok", none⟩]⟩
        (run_test_suite (fun p => p.name == "ok") ⟨"s1", [], none, [⟨"bad", none⟩]⟩
          initCounters).2.2).2.1.all (fun r => r.success) = true) := by decide

/-- C1 (amended): the value `run_test_suite` returns is true iff the incoming
run-wide failed counter is zero and every playbook executed in this suite
succeeded (the counter is cumulative across the run, not per-suite); for a
nonempty suite selection, the aggregate success of `run_all_suites` equals
the conjunction of the per-suite local all-playbooks-passed values. -/
theorem C1_amended_thm (exec : Exec) (suite : SuiteDef) (st : RunCounters)
    (tagF : Option String) (suites : List SuiteDef) (st0 : RunCounters)
    (h0 : st0.failed = 0) (hne : selectSuites tagF suites ≠ []) :
    (run_test_suite exec suite st).1 = ((st.failed == 0) && suiteAllPass exec suite)
    ∧ (run_all_suites exec tagF suites st0).1
        = (selectSuites tagF suites).all (fun s => suiteAllPass exec s) := by
  refine ⟨run_test_suite_fst exec suite st, ?_⟩
  unfold run_all_suites
  rw [if_neg (by simpa using hne)]
  rw [runSuitesFold_fst exec _ _ _ hne]
  rw [Bool.eq_iff_iff]
  simp only [Bool.true_and, beq_iff_eq, h0, Nat.zero_add, List.all_eq_true]
  rw [natSum_eq_zero]
  constructor
  · intro h s hs
    rw [← suiteFailCount_eq_zero_iff]
    exact h (suiteFailCount exec s) (List.mem_map_of_mem _ hs)
  · intro h x hx
    obtain ⟨s, hs, rfl⟩ := List.mem_map.mp hx
    rw [suiteFailCount_eq_zero_iff]
    exact h s hs

/-- C1 witness: a fresh single-suite run with one passing playbook. -/
theorem C1_amended_witness :
    (run_test_suite (fun _ => true) ⟨"s1", [], none, [⟨"a", none⟩]⟩ initCounters).1
      = ((initCounters.failed == 0)
          && suiteAllPass (fun _ => true) ⟨"s1", [], none, [⟨"a", none⟩]⟩)
    ∧ (run_all_suites (fun _ => true) none [⟨"s1", [], none, [⟨"a", none⟩]⟩]
        initCounters).1
      = (selectSuites none [⟨"s1", [], none, [⟨"a", none⟩]⟩]).all
          (fun s => suiteAllPass (fun _ => true) s) :=
  C1_amended_thm (fun _ => true) ⟨"s1", [], none, [⟨"a", none⟩]⟩ initCounters
    none [⟨"s1", [], none, [⟨"a", none⟩]⟩] initCounters rfl (by decide)

/-- C2 (confirmed): with stop-on-failure enabled, if every playbook before
`pb` either succeeded or is not required, and `pb` fails and is required
(required defaults to true when absent), then the suite's result list is
exactly the results of the playbooks up to and including `pb`, in declared
order — nothing after `pb` is executed. -/
theorem C2_stop_on_first_required_failure (exec : Exec) (suite : SuiteDef)
    (st : RunCounters) (pre : List PlaybookSpec) (pb : PlaybookSpec)
    (post : List PlaybookSpec)
    (hsof : suite.stopOnFailure.getD false = true)
    (hsplit : suite.playbooks = pre ++ pb :: post)
    (hpre : ∀ q ∈ pre, exec q = true ∨ q.required.getD true = false)
    (hfail : exec pb = false) (hreq : pb.required.getD true = true) :
    (run_test_suite exec suite st).2.1 = (pre ++ [pb]).map (mkResult exec)
    ∧ (run_test_suite exec suite st).2.1.length = pre.length + 1 := by
  have key : ∀ (pre' : List PlaybookSpec) (st' : RunCounters),
      (∀ q ∈ pre', exec q = true ∨ q.required.getD true = false) →
      (runSuiteLoop exec true (pre' ++ pb :: post) st').1
        = (pre' ++ [pb]).map (mkResult exec) := by
    intro pre'
    induction pre' with
    | nil =>
      intro st' _
      simp only [List.nil_append, runSuiteLoop, mkResult, hfail]
      simp [hfail, hreq, mkResult]
    | cons q rest ih =>
      intro st' hq
      have hqhead := hq q (by simp)
      simp only [List.cons_append, runSuiteLoop]
      rcases hqhead with hok | hnotreq
      · simp only [mkResult, hok]
        simp [ih _ (fun x hx => hq x (by simp [hx])), mkResult, hok]
      · cases hok : exec q with
        | true =>
          simp only [mkResult, hok]
          simp [ih _ (fun x hx => hq x (by simp [hx])), mkResult, hok]
        | false =>
          simp only [mkResult, hok, hnotreq]
          simp [ih _ (fun x hx => hq x (by simp [hx])), mkResult, hok, hnotreq]
  have hres : (run_test_suite exec suite st).2.1
      = (pre ++ [pb]).map (mkResult exec) := by
    simp only [run_test_suite, hsplit, hsof]
    exact key pre st hpre
  exact ⟨hres, by simp [hres]⟩

/-- C2 witness: a two-playbook suite whose second, required playbook fails
under stop-on-failure, followed by a third playbook that is never run. -/
theorem C2_witness :
    (run_test_suite (fun p => p.name == "a") ⟨"s", [], some true,
        [⟨"a", none⟩, ⟨"b", none⟩, ⟨"c", none⟩]⟩ initCounters).2.1
      = ([⟨"a", none⟩, ⟨"b", none⟩] : List PlaybookSpec).map
          (mkResult (fun p => p.name == "a"))
    ∧ (run_test_suite (fun p => p.name == "a") ⟨"s", [], some true,
        [⟨"a", none⟩, ⟨"b", none⟩, ⟨"c", none⟩]⟩ initCounters).2.1.length = 2 := by
  have := C2_stop_on_first_required_failure (fun p => p.name == "a")
    ⟨"s", [], some true, [⟨"a", none⟩, ⟨"b", none⟩, ⟨"c", none⟩]⟩ initCounters
    [⟨"a", none⟩] ⟨"b", none⟩ [⟨"c", none⟩] (by decide) (by decide)
    (by decide) (by decide) (by decide)
  simpa using this

/-- C3 (confirmed): with stop-on-failure disabled (absent or false), a suite
run produces exactly one result per declared playbook, in declared order,
whatever the individual outcomes. -/
theorem C3_no_stop_full_results (exec : Exec) (suite : SuiteDef) (st : RunCounters)
    (h : suite.stopOnFailure.getD false = false) :
    (run_test_suite exec suite st).2.1 = suite.playbooks.map (mkResult exec)
    ∧ (run_test_suite exec suite st).2.1.length = suite.playbooks.length := by
  have key : ∀ (pbs : List PlaybookSpec) (st' : RunCounters),
      (runSuiteLoop exec false pbs st').1 = pbs.map (mkResult exec) := by
    intro pbs
    induction pbs with
    | nil => intro st'; rfl
    | cons pb rest ih =>
      intro st'
      simp only [runSuiteLoop]
      cases hr : exec pb with
      | true => simp [mkResult, hr, ih]
      | false => simp [mkResult, hr, ih]
  have hres : (run_test_suite exec suite st).2.1 = suite.playbooks.map (mkResult exec) := by
    simp only [run_test_suite, h]
    exact key suite.playbooks st
  exact ⟨hres, by simp [hres]⟩

/-- C3 witness: a two-playbook suite with one failure and no stop flag. -/
theorem C3_witness :
    (run_test_suite (fun p => p.name == "a") ⟨"s", [], none,
        [⟨"a", none⟩, ⟨"b", none⟩]⟩ initCounters).2.1
      = ([⟨"a", none⟩, ⟨"b", none⟩] : List PlaybookSpec).map
          (mkResult (fun p => p.name == "a"))
    ∧ (run_test_suite (fun p => p.name == "a") ⟨"s", [], none,
        [⟨"a", none⟩, ⟨"b", none⟩]⟩ initCounters).2.1.length = 2 := by
  have := C3_no_stop_full_results (fun p => p.name == "a")
    ⟨"s", [], none, [⟨"a", none⟩, ⟨"b", none⟩]⟩ initCounters (by decide)
  simpa using this

/-- C4 (code bug): in a batch run, `total_tests` is overwritten with the
playbook count of each suite as it finishes, so after a two-playbook suite
and then a one-playbook suite it drops from 2 to 1 while the cumulative
passed counter reaches 3 — the counter is decremented, contradicting the
claim and the spec, and leaves `total_tests < passed`. -/
theorem C4_total_tests_decrease :
    ((run_test_suite (fun _ => true) ⟨"s1", [], none, [⟨"a", none⟩, ⟨"b", none⟩]⟩
        initCounters).2.2.total_tests = 2)
    ∧ ((run_test_suite (fun _ => true) ⟨"s2", [], none, [⟨"c", none⟩]⟩
        (run_test_suite (fun _ => true) ⟨"s1", [], none, [⟨"a", none⟩, ⟨"b", none⟩]⟩
          initCounters).2.2).2.2.total_tests = 1)
    ∧ ((run_test_suite (fun _ => true) ⟨"s2", [], none, [⟨"c", none⟩]⟩
        (run_test_suite (fun _ => true) ⟨"s1", [], none, [⟨"a", none⟩, ⟨"b", none⟩]⟩
          initCounters).2.2).2.2.passed = 3) := by decide

/-- C5 counterexample: with a tag that matches no suite, `run_all_suites`
returns false and the process exit code is 1, although the final failed
counter is 0 (no playbook failed) — the claimed exit code 0 does not hold. -/
theorem C5_cex :
    run_all_suites (fun _ => true) (some "rosa-hcp")
        [⟨"01-suite", ["other"], none, [⟨"a", none⟩]⟩] initCounters
      = (false, initCounters)
    ∧ exitCode (run_all_suites (fun _ => true) (some "rosa-hcp")
        [⟨"01-suite", ["other"], none, [⟨"a", none⟩]⟩] initCounters).1 = 1
    ∧ (run_all_suites (fun _ => true) (some "rosa-hcp")
        [⟨"01-suite", ["other"], none, [⟨"a", none⟩]⟩] initCounters).2.failed = 0 := by
  decide

/-- C5 (amended): when the tag filter selects no suite, the batch runner
reports the empty condition and returns false without raising (the counters
are left untouched), and the process therefore exits with code 1 even though
no playbook failed. -/
theorem C5_amended_thm (exec : Exec) (tag : String) (suites : List SuiteDef)
    (st : RunCounters) (h : selectSuites (some tag) suites = []) :
    run_all_suites exec (some tag) suites st = (false, st)
    ∧ exitCode (run_all_suites exec (some tag) suites st).1 = 1
    ∧ (run_all_suites exec (some tag) suites st).2.failed = st.failed := by
  have hrun : run_all_suites exec (some tag) suites st = (false, st) := by
    unfold run_all_suites
    rw [h]
    rfl
  exact ⟨hrun, by rw [hrun]; rfl, by rw [hrun]⟩

/-- C5 witness: a concrete unmatched tag filter. -/
theorem C5_witness :
    run_all_suites (fun _ => true) (some "rosa-hcp")
        [⟨"01-suite", ["other"], none, [⟨"a", none⟩]⟩] initCounters
      = (false, initCounters)
    ∧ exitCode (run_all_suites (fun _ => true) (some "rosa-hcp")
        [⟨"01-suite", ["other"], none, [⟨"a", none⟩]⟩] initCounters).1 = 1
    ∧ (run_all_suites (fun _ => true) (some "rosa-hcp")
        [⟨"01-suite", ["other"], none, [⟨"a", none⟩]⟩] initCounters).2.failed
        = initCounters.failed :=
  C5_amended_thm (fun _ => true) "rosa-hcp"
    [⟨"01-suite", ["other"], none, [⟨"a", none⟩]⟩] initCounters (by decide)

/-- C6 (confirmed): the guarded denominator `max(total_tests, 1)` is always
positive, the percentage at total = 0 and passed = 0 is 0 for any values of
the other counters, and the computed value is `passed / max(total, 1) * 100`
exactly. -/
theorem C6_pass_percentage :
    (∀ st : RunCounters, 0 < Nat.max st.total_tests 1)
    ∧ (∀ f s : Nat, passedPct ⟨0, 0, f, s⟩ = 0)
    ∧ (∀ st : RunCounters,
        passedPct st = ((st.passed : ℚ) / ((Nat.max st.total_tests 1 : ℕ) : ℚ)) * 100) := by
  refine ⟨fun st => ?_, fun f s => ?_, fun st => rfl⟩
  · exact Nat.lt_of_lt_of_le Nat.zero_lt_one (Nat.le_max_right _ _)
  · simp [passedPct]

/-! ## Helper lemmas about the environment store upsert -/

theorem addEnvGo_no_match (r : EnvRecord) (cname : String) (store : List EnvRecord)
    (h : ∀ e ∈ store, e.cluster_name ≠ cname) :
    addEnvGo r cname store = store ++ [r] := by
  induction store with
  | nil => rfl
  | cons env rest ih =>
    have hne : env.cluster_name ≠ cname := h env (by simp)
    simp only [addEnvGo]
    rw [if_neg (by simpa using hne)]
    rw [ih (fun e he => h e (by simp [he]))]
    rfl

theorem addEnvGo_first_match (r : EnvRecord) (cname : String)
    (pre : List EnvRecord) (old : EnvRecord) (post : List EnvRecord)
    (hpre : ∀ e ∈ pre, e.cluster_name ≠ cname) (hold : old.cluster_name = cname) :
    addEnvGo r cname (pre ++ old :: post)
      = pre ++ ({ r with added_date := old.added_date } :: post) := by
  induction pre with
  | nil =>
    simp only [List.nil_append, addEnvGo]
    rw [if_pos (by simpa using hold)]
  | cons e rest ih =>
    have hne : e.cluster_name ≠ cname := hpre e (by simp)
    simp only [List.cons_append, addEnvGo]
    rw [if_neg (by simpa using hne)]
    exact congrArg (fun l => e :: l) (ih (fun x hx => hpre x (by simp [hx])))

theorem addEnvGo_length_of_mem (r : EnvRecord) (cname : String) (store : List EnvRecord)
    (h : ∃ e ∈ store, e.cluster_name = cname) :
    (addEnvGo r cname store).length = store.length := by
  induction store with
  | nil =>
    obtain ⟨e, he, _⟩ := h
    cases he
  | cons env rest ih =>
    simp only [addEnvGo]
    by_cases hc : env.cluster_name = cname
    · rw [if_pos (by simpa using hc)]
      simp
    · rw [if_neg (by simpa using hc)]
      simp only [List.length_cons]
      have hrest : ∃ e ∈ rest, e.cluster_name = cname := by
        obtain ⟨e, he, hee⟩ := h
        rcases List.mem_cons.mp he with rfl | hr
        · exact absurd hee hc
        · exact ⟨e, hr, hee⟩
      rw [ih hrest]

theorem addEnvGo_twice_length (r1 r2 : EnvRecord) (cname : String)
    (h1 : r1.cluster_name = cname) (store : List EnvRecord) :
    (addEnvGo r2 cname (addEnvGo r1 cname store)).length
      = (addEnvGo r1 cname store).length := by
  induction store with
  | nil =>
    simp [addEnvGo, h1]
  | cons env rest ih =>
    by_cases hc : env.cluster_name = cname
    · simp [addEnvGo, hc, h1]
    · simp only [addEnvGo]
      rw [if_neg (by simpa using hc)]
      simp only [addEnvGo]
      rw [if_neg (by simpa using hc)]
      simpa using ih

theorem addEnvGo_twice_added (r1 r2 : EnvRecord) (cname : String)
    (h1 : r1.cluster_name = cname) (h2 : r2.cluster_name = cname)
    (store : List EnvRecord) :
    ((addEnvGo r2 cname (addEnvGo r1 cname store)).find?
        (fun e => e.cluster_name == cname)).map (fun e => e.added_date)
      = ((addEnvGo r1 cname store).find?
        (fun e => e.cluster_name == cname)).map (fun e => e.added_date) := by
  induction store with
  | nil =>
    simp [addEnvGo, h1, h2, List.find?]
  | cons env rest ih =>
    by_cases hc : env.cluster_name = cname
    · simp [addEnvGo, hc, h1, h2, List.find?]
    · simp only [addEnvGo]
      rw [if_neg (by simpa using hc)]
      simp only [addEnvGo]
      rw [if_neg (by simpa using hc)]
      rw [List.find?_cons_of_neg _ (by simpa using hc),
          List.find?_cons_of_neg _ (by simpa using hc)]
      exact ih

/-- C7 (confirmed): upserting preserves the original added timestamp and
replaces all other fields of the matched record (the first record with the
cluster name extracted from the payload), keeping the record count; with no
match it appends one record with both timestamps set to now; upserting the
same payload twice leaves both the record count and the stored
added-timestamp of that cluster unchanged. -/
theorem C7_upsert (now now2 : Nat) (d : EnvData) (status notes : String)
    (store : List EnvRecord) :
    ((mkEnvRecord now d status notes).added_date = now
      ∧ (mkEnvRecord now d status notes).last_accessed = now)
    ∧ (∀ pre old post, store = pre ++ old :: post →
        (∀ e ∈ pre, e.cluster_name ≠ extractClusterName d) →
        old.cluster_name = extractClusterName d →
        add_environment now d status notes store
          = pre ++ ({ mkEnvRecord now d status notes with
              added_date := old.added_date } :: post))
    ∧ ((∃ e ∈ store, e.cluster_name = extractClusterName d) →
        (add_environment now d status notes store).length = store.length)
    ∧ ((∀ e ∈ store, e.cluster_name ≠ extractClusterName d) →
        add_environment now d status notes store
          = store ++ [mkEnvRecord now d status notes])
    ∧ ((add_environment now2 d status notes
          (add_environment now d status notes store)).length
        = (add_environment now d status notes store).length)
    ∧ (((add_environment now2 d status notes
          (add_environment now d status notes store)).find?
            (fun e => e.cluster_name == extractClusterName d)).map
              (fun e => e.added_date)
        = ((add_environment now d status notes store).find?
            (fun e => e.cluster_name == extractClusterName d)).map
              (fun e => e.added_date)) := by
  refine ⟨⟨rfl, rfl⟩, ?_, ?_, ?_, ?_, ?_⟩
  · intro pre old post hsplit hpre hold
    rw [hsplit]
    exact addEnvGo_first_match _ _ pre old post hpre hold
  · intro hmem
    exact addEnvGo_length_of_mem _ _ store hmem
  · intro hno
    exact addEnvGo_no_match _ _ store hno
  · exact addEnvGo_twice_length (mkEnvRecord now d status notes)
      (mkEnvRecord now2 d status notes) (extractClusterName d) rfl store
  · exact addEnvGo_twice_added (mkEnvRecord now d status notes)
      (mkEnvRecord now2 d status notes) (extractClusterName d) rfl rfl store

/-- C7 witness: upserting payload `c7Data` (cluster `c1`) into a store that
already holds a record for `c1` with added timestamp 5 replaces the record,
keeps added timestamp 5, and keeps the record count. -/
theorem C7_witness :
    add_environment 10 c7Data "unknown" "" c7Store
      = [{ mkEnvRecord 10 c7Data "unknown" "" with added_date := 5 }]
    ∧ (add_environment 10 c7Data "unknown" "" c7Store).length = c7Store.length := by
  have h := C7_upsert 10 20 c7Data "unknown" "" c7Store
  have hex : ∃ e ∈ c7Store, e.cluster_name = extractClusterName c7Data := by
    refine ⟨c7Old, ?_, ?_⟩
    · simp [c7Store]
    · rfl
  refine ⟨?_, h.2.2.1 hex⟩
  have h2 := h.2.1 [] c7Old [] rfl (by simp) (by decide)
  simpa [c7Store] using h2

/-! ## Helper lemmas about the dict model used by the variable merge -/

theorem dictLookup_insertKV_self {α : Type} (k : String) (v : α) :
    ∀ d : List (String × α), dictLookup (insertKV d k v) k = some v
  | [] => by simp [insertKV, dictLookup, List.find?]
  | p :: rest => by
    cases hp : p.1 == k with
    | true => simp [insertKV, hp, dictLookup, List.find?_cons]
    | false =>
      simp only [insertKV, hp, Bool.false_eq_true, if_false, dictLookup,
        List.find?_cons]
      exact dictLookup_insertKV_self k v rest

theorem dictLookup_insertKV_ne {α : Type} (k k' : String) (v : α) (hne : k' ≠ k) :
    ∀ d : List (String × α), dictLookup (insertKV d k v) k' = dictLookup d k'
  | [] => by
    have hk : (k == k') = false := by
      simp [beq_eq_false_iff_ne, Ne.symm hne]
    simp [insertKV, dictLookup, List.find?, hk]
  | p :: rest => by
    cases hp : p.1 == k with
    | true =>
      have hp1 : p.1 = k := by simpa using hp
      have hk : (k == k') = false := by
        simp [beq_eq_false_iff_ne, Ne.symm hne]
      simp [insertKV, hp, dictLookup, List.find?_cons, hk, hp1]
    | false =>
      simp only [insertKV, hp, Bool.false_eq_true, if_false, dictLookup,
        List.find?_cons]
      cases hq : p.1 == k' with
      | true => rfl
      | false => exact dictLookup_insertKV_ne k k' v hne rest

theorem dictUpdate_cons {α : Type} (d : List (String × α)) (p : String × α)
    (u : List (String × α)) :
    dictUpdate d (p :: u) = dictUpdate (insertKV d p.1 p.2) u := rfl

theorem dictUpdate_lookup_of_not_mem {α : Type} (u : List (String × α)) :
    ∀ (d : List (String × α)) (k : String), (∀ p ∈ u, p.1 ≠ k) →
      dictLookup (dictUpdate d u) k = dictLookup d k := by
  induction u with
  | nil => intro d k _; rfl
  | cons p rest ih =>
    intro d k h
    rw [dictUpdate_cons, ih _ _ (fun q hq => h q (by simp [hq]))]
    exact dictLookup_insertKV_ne p.1 k p.2 (Ne.symm (h p (by simp))) d

theorem dictUpdate_lookup_mem {α : Type} (u : List (String × α)) :
    ∀ (d : List (String × α)) (k : String) (v : α),
      (k, v) ∈ u → (keysOf u).Nodup →
      dictLookup (dictUpdate d u) k = some v := by
  induction u with
  | nil => intro d k v h _; cases h
  | cons p rest ih =>
    intro d k v hmem hnd
    simp only [keysOf, List.map_cons, List.nodup_cons] at hnd
    rw [dictUpdate_cons]
    rcases List.mem_cons.mp hmem with heq | hr
    · have hp1 : p.1 = k := by rw [← heq]
      have hp2 : p.2 = v := by rw [← heq]
      have hnotin : ∀ q ∈ rest, q.1 ≠ k := by
        intro q hq hqk
        apply hnd.1
        have hmm : q.1 ∈ rest.map (fun p => p.1) := List.mem_map_of_mem _ hq
        rwa [hqk, ← hp1] at hmm
      rw [dictUpdate_lookup_of_not_mem rest _ k hnotin, hp1, hp2]
      exact dictLookup_insertKV_self k v d
    · exact ih _ _ _ hr (by simpa [keysOf] using hnd.2)

theorem dictLookup_insertKV_isSome {α : Type} (d : List (String × α)) (k k'' : String)
    (v : α) (h : (dictLookup d k'').isSome) :
    (dictLookup (insertKV d k v) k'').isSome := by
  by_cases hk : k'' = k
  · subst hk
    rw [dictLookup_insertKV_self]
    rfl
  · rw [dictLookup_insertKV_ne k k'' v hk d]
    exact h

theorem dictUpdate_isSome_left {α : Type} (u : List (String × α)) :
    ∀ (d : List (String × α)) (k : String), (dictLookup d k).isSome →
      (dictLookup (dictUpdate d u) k).isSome := by
  induction u with
  | nil => intro d k h; exact h
  | cons p rest ih =>
    intro d k h
    rw [dictUpdate_cons]
    exact ih _ _ (dictLookup_insertKV_isSome d p.1 k p.2 h)

theorem dictUpdate_isSome_right {α : Type} (u : List (String × α)) :
    ∀ (d : List (String × α)) (k : String), (dictLookup u k).isSome →
      (dictLookup (dictUpdate d u) k).isSome := by
  induction u with
  | nil =>
    intro d k h
    simp [dictLookup, List.find?] at h
  | cons p rest ih =>
    intro d k h
    rw [dictUpdate_cons]
    cases hp : p.1 == k with
    | true =>
      have hk : k = p.1 := (by simpa using hp : p.1 = k).symm
      apply dictUpdate_isSome_left
      rw [hk, dictLookup_insertKV_self]
      rfl
    | false =>
      have hr : (dictLookup rest k).isSome := by
        unfold dictLookup at h ⊢
        simp only [List.find?_cons, hp] at h
        exact h
      exact ih _ _ hr

/-! ## Claim theorems: variable merge and parser -/

/-- C8 counterexample: in dry-run mode the injected `dry_run = "true"`
overrides a caller-supplied `dry_run` value on a key present in both
mappings, so the caller-supplied value is not the one used. -/
theorem C8_cex :
    dictLookup (all_vars [("dry_run", "spec")] [("dry_run", "no")] true) "dry_run"
        ≠ some "no"
    ∧ dictLookup (all_vars [("dry_run", "spec")] [("dry_run", "no")] true) "dry_run"
        = some "true" := by decide

/-- C8 (amended): the merged mapping contains every key of the spec-level and
caller-supplied mappings; on a key collision the caller-supplied value is
used, except that in dry-run mode the key `dry_run` is forced to `"true"`,
overriding both mappings. -/
theorem C8_amended_thm (specVars callerVars : List (String × String)) (dryRun : Bool)
    (hnd : (keysOf callerVars).Nodup) :
    (∀ k, ((dictLookup specVars k).isSome ∨ (dictLookup callerVars k).isSome) →
        (dictLookup (all_vars specVars callerVars dryRun) k).isSome)
    ∧ (∀ k v, (k, v) ∈ callerVars → ¬(dryRun = true ∧ k = "dry_run") →
        dictLookup (all_vars specVars callerVars dryRun) k = some v)
    ∧ (dryRun = true →
        dictLookup (all_vars specVars callerVars dryRun) "dry_run" = some "true") := by
  unfold all_vars
  cases dryRun with
  | false =>
    simp only [Bool.false_eq_true, if_false]
    refine ⟨?_, ?_, fun h => absurd h (by simp)⟩
    · intro k hk
      rcases hk with hs | hc
      · exact dictUpdate_isSome_left _ _ _ (dictUpdate_isSome_right _ _ _ hs)
      · exact dictUpdate_isSome_right _ _ _ hc
    · intro k v hm _
      exact dictUpdate_lookup_mem _ _ _ _ hm hnd
  | true =>
    simp only [if_true]
    refine ⟨?_, ?_, fun _ => dictLookup_insertKV_self _ _ _⟩
    · intro k hk
      apply dictLookup_insertKV_isSome
      rcases hk with hs | hc
      · exact dictUpdate_isSome_left _ _ _ (dictUpdate_isSome_right _ _ _ hs)
      · exact dictUpdate_isSome_right _ _ _ hc
    · intro k v hm hno
      have hkne : k ≠ "dry_run" := fun hk => hno (by simp [hk])
      rw [dictLookup_insertKV_ne _ _ _ hkne]
      exact dictUpdate_lookup_mem _ _ _ _ hm hnd

/-- C8 witness: a concrete merge where the caller overrides a colliding key
and a spec-only key survives. -/
theorem C8_witness :
    dictLookup (all_vars [("a", "1")] [("a", "2"), ("b", "3")] false) "a" = some "2"
    ∧ (dictLookup (all_vars [("a", "1")] [("a", "2"), ("b", "3")] false) "b").isSome := by
  have h := C8_amended_thm [("a", "1")] [("a", "2"), ("b", "3")] false (by decide)
  exact ⟨h.2.1 "a" "2" (by decide) (by decide), h.1 "b" (Or.inr (by decide))⟩

/-- C9 (confirmed): the scenario text with the networking and storage entries
parses to the stated component mapping with total failures 4, and in general
`total_failures` equals the sum of the failure counts over the values of the
component mapping extracted by the component pattern. -/
theorem C9_components_scenario :
    (parse_notification c9Text).components
      = [("networking", ⟨3, "alice"⟩), ("storage", ⟨1, "bob"⟩)]
    ∧ (parse_notification c9Text).total_failures = 4
    ∧ (∀ t : String, (parse_notification t).total_failures
        = ((parse_notification t).components.map (fun p => p.2.failures)).sum) :=
  ⟨by decide, by decide, fun t => rfl⟩

/-! ## Helper lemmas about search totality and partiality -/

theorem isPrefixOf_length_le : ∀ p s : List Char, p.isPrefixOf s = true →
    p.length ≤ s.length
  | [], _, _ => Nat.zero_le _
  | _ :: _, [], h => by simp [List.isPrefixOf] at h
  | a :: p', b :: s', h => by
    simp only [List.isPrefixOf, Bool.and_eq_true] at h
    simpa using isPrefixOf_length_le p' s' h.2

theorem containsSeg_eq_false_of_lt (p s : List Char) (h : s.length < p.length) :
    containsSeg p s = false := by
  unfold containsSeg
  rw [List.any_eq_false]
  intro i _hi hpref
  have h1 := isPrefixOf_length_le p (s.drop i) hpref
  have h2 : (s.drop i).length ≤ s.length := by
    rw [List.length_drop]
    omega
  omega

theorem pyContains_eq_false_of_lt (a b : String) (h : b.data.length < a.data.length) :
    pyContains a b = false :=
  containsSeg_eq_false_of_lt _ _ h

theorem pyLower_data_length (s : String) : (pyLower s).data.length = s.data.length := by
  simp [pyLower]

theorem ticketField_eq (d : EnvData) (nd : NotificationData)
    (f : NotificationData → JField) (hn : d.notification = some nd) :
    ticketField d f = (match f nd with
      | JField.absent => some ""
      | JField.null => none
      | JField.str s => some s) := by
  unfold ticketField
  rw [hn]

theorem ticketField_jira_ne_none (env : EnvRecord) (h : ticketFieldsOk env) :
    ticketField env.data (fun n => n.jira) ≠ none := by
  unfold ticketField
  cases hn : env.data.notification with
  | none => simp
  | some nd =>
    have hj := (h nd hn).1
    cases hjv : nd.jira with
    | absent => simp [hjv]
    | null => exact absurd hjv hj
    | str s => simp [hjv]

theorem ticketField_polarion_ne_none (env : EnvRecord) (h : ticketFieldsOk env) :
    ticketField env.data (fun n => n.polarion) ≠ none := by
  unfold ticketField
  cases hn : env.data.notification with
  | none => simp
  | some nd =>
    have hp := (h nd hn).2
    cases hpv : nd.polarion with
    | absent => simp [hpv]
    | null => exact absurd hpv hp
    | str s => simp [hpv]

theorem envMatches_ok_of_ticketFieldsOk (q : String) (env : EnvRecord)
    (h : ticketFieldsOk env) : ∃ b, envMatches q env = Except.ok b := by
  unfold envMatches
  by_cases h1 : pyContains q (pyLower env.cluster_name) = true
  · rw [if_pos h1]
    exact ⟨true, rfl⟩
  · rw [if_neg h1]
    by_cases h2 : pyContains q (pyLower env.platform) = true
    · rw [if_pos h2]
      exact ⟨true, rfl⟩
    · rw [if_neg h2]
      by_cases h3 : pyContains q (pyLower env.notes) = true
      · rw [if_pos h3]
        exact ⟨true, rfl⟩
      · rw [if_neg h3]
        cases hj : ticketField env.data (fun n => n.jira) with
        | none => exact absurd hj (ticketField_jira_ne_none env h)
        | some j =>
          by_cases h4 : pyContains q (pyLower j) = true
          · exact ⟨true, by simp [h4]⟩
          · cases hp : ticketField env.data (fun n => n.polarion) with
            | none => exact absurd hp (ticketField_polarion_ne_none env h)
            | some p => exact ⟨pyContains q (pyLower p), by simp [h4]⟩

theorem searchGo_ok (q : String) (store : List EnvRecord)
    (h : ∀ env ∈ store, ticketFieldsOk env) :
    ∃ l, searchGo q store = Except.ok l := by
  induction store with
  | nil => exact ⟨[], rfl⟩
  | cons env rest ih =>
    obtain ⟨b, hb⟩ := envMatches_ok_of_ticketFieldsOk q env (h env (by simp))
    obtain ⟨l, hl⟩ := ih (fun e he => h e (by simp [he]))
    cases b with
    | true => exact ⟨env :: l, by simp [searchGo, hb, hl]⟩
    | false => exact ⟨l, by simp [searchGo, hb, hl]⟩

theorem search_error_of_null_aux (env : EnvRecord) (nd : NotificationData) (M : Nat)
    (hn : env.data.notification = some nd)
    (hnull : nd.jira = JField.null ∨ nd.polarion = JField.null)
    (hb1 : env.cluster_name.data.length ≤ M)
    (hb2 : env.platform.data.length ≤ M)
    (hb3 : env.notes.data.length ≤ M)
    (hb4 : (jfieldStr nd.jira).data.length ≤ M) :
    search_environments (String.mk (List.replicate (M + 1) 'a')) [env]
      = Except.error "AttributeError" := by
  have hqlen : (pyLower (String.mk (List.replicate (M + 1) 'a'))).data.length
      = M + 1 := by
    rw [pyLower_data_length]
    simp
  have hbig : ∀ t : String, t.data.length ≤ M →
      pyContains (pyLower (String.mk (List.replicate (M + 1) 'a'))) (pyLower t)
        = false := by
    intro t ht
    apply pyContains_eq_false_of_lt
    rw [pyLower_data_length, hqlen]
    omega
  have hc1 := hbig _ hb1
  have hc2 := hbig _ hb2
  have hc3 := hbig _ hb3
  have henv : envMatches (pyLower (String.mk (List.replicate (M + 1) 'a'))) env
      = Except.error "AttributeError" := by
    unfold envMatches
    rw [if_neg (by simp [hc1]), if_neg (by simp [hc2]), if_neg (by simp [hc3])]
    cases hjv : nd.jira with
    | null =>
      have hj : ticketField env.data (fun n => n.jira) = none := by
        rw [ticketField_eq env.data nd _ hn]
        simp [hjv]
      rw [hj]
    | absent =>
      have hj : ticketField env.data (fun n => n.jira) = some "" := by
        rw [ticketField_eq env.data nd _ hn]
        simp [hjv]
      rcases hnull with hnl | hnp
      · exact absurd hnl (by simp [hjv])
      · have hce := hbig "" (by simp)
        have hp : ticketField env.data (fun n => n.polarion) = none := by
          rw [ticketField_eq env.data nd _ hn]
          simp [hnp]
        rw [hj]
        simp [hce, hp]
    | str s =>
      have hj : ticketField env.data (fun n => n.jira) = some s := by
        rw [ticketField_eq env.data nd _ hn]
        simp [hjv]
      rcases hnull with hnl | hnp
      · exact absurd hnl (by simp [hjv])
      · have hcs : pyContains (pyLower (String.mk (List.replicate (M + 1) 'a')))
            (pyLower s) = false := by
          apply hbig
          have hsl : s.data.length = (jfieldStr nd.jira).data.length := by
            rw [hjv]
            rfl
          omega
        have hp : ticketField env.data (fun n => n.polarion) = none := by
          rw [ticketField_eq env.data nd _ hn]
          simp [hnp]
        rw [hj]
        simp [hcs, hp]
  show searchGo (pyLower (String.mk (List.replicate (M + 1) 'a'))) [env]
      = Except.error "AttributeError"
  simp [searchGo, henv]

/-- C10 (confirmed): the search is not total — on the record built from the
parser output for a text with no Jira and no Polarion entry (both fields
present but null) a query missing from the plain string fields raises; it is
total on stores whose ticket-reference fields are all strings or absent; and
every record with a present-but-null ticket field yields an erroring query. -/
theorem C10_search_partiality :
    (search_environments "zzz" c10Store = Except.error "AttributeError"
      ∧ (parse_notification c10Text).jira = JField.null
      ∧ (parse_notification c10Text).polarion = JField.null)
    ∧ (∀ q store, (∀ env ∈ store, ticketFieldsOk env) →
        ∃ l, search_environments q store = Except.ok l)
    ∧ (∀ env nd, env.data.notification = some nd →
        (nd.jira = JField.null ∨ nd.polarion = JField.null) →
        ∃ q e, search_environments q [env] = Except.error e) := by
  refine ⟨⟨by rfl, by decide, by decide⟩, ?_, ?_⟩
  · intro q store h
    exact searchGo_ok (pyLower q) store h
  · intro env nd hn hnull
    refine ⟨_, _, search_error_of_null_aux env nd
      ((env.cluster_name.data.length.max env.platform.data.length).max
        (env.notes.data.length.max (jfieldStr nd.jira).data.length))
      hn hnull ?_ ?_ ?_ ?_⟩
    · exact Nat.le_trans (Nat.le_max_left _ _) (Nat.le_max_left _ _)
    · exact Nat.le_trans (Nat.le_max_right _ _) (Nat.le_max_left _ _)
    · exact Nat.le_trans (Nat.le_max_left _ _) (Nat.le_max_right _ _)
    · exact Nat.le_trans (Nat.le_max_right _ _) (Nat.le_max_right _ _)

/-- C10 witness: the empty store satisfies the string-or-absent condition
vacuously, and search succeeds on it. -/
theorem C10_witness :
    ∃ l, search_environments "probe" [] = Except.ok l :=
  C10_search_partiality.2.1 "probe" []
    (fun env h => absurd h (List.not_mem_nil env))

end Capa
